import Mathlib

/-!
Shallow embedding of the `mapper` package of fbarikzehi/go-mapper.

The engine (`Mapper.Map`, `context.mapValue` and its shape handlers,
the functional options and `NewMapper`) is translated from the Go source
files; `context.checkCircular` and `Config.validate` come from
`mapper/context.go` and `mapper/config.go`.

Modelling conventions:
  * `reflect.Value`s are modelled by the inductive `RVal`.  Reference-like
    values (pointers, maps, slices) carry an optional address (`none` models
    the Go nil reference, mirroring `ptr == 0` in `checkCircular`); their
    referents live in an explicit heap (`Addr → Option HObj`), so reference
    identity — what the visited set tracks — is preserved.
  * In Go the destination `reflect.Value` is mutated in place.  Here every
    handler returns the updated destination value alongside the error, and
    writes through pointers/maps/slices go to the heap, which is threaded
    through an explicit state (`MState`, the Go `context`).  Settability
    (`CanSet`) is an explicit boolean argument.
  * The mutual recursion `mapValue` ⇄ handlers is made total with a fuel
    parameter; every call consumes one unit, and `none` means the fuel ran
    out (the Go code has no such bound; all theorems supply enough fuel).
  * Go `int` is modelled as `Int`; struct tags as association lists;
    named recursive types (such as `type P *P`, which Go permits and which
    yields a pure pointer cycle) are modelled nominally by `Ty.tNamed`.
-/

namespace GoMapper

abbrev Addr := Nat

/-- The subset of `reflect.Kind` the engine inspects (plus `chan`/`func`,
which occur only in the `reflectutil` kind predicates). -/
inductive Kind where
  | invalid | kbool | kint | kstring | kstruct | kptr | kmap | kslice
  | karray | kinterface | kchan | kfunc
deriving DecidableEq, Repr

/-- `reflect.StructField` metadata: name, tags, `PkgPath` (empty iff the
field is exported) and the `Anonymous` (embedded) flag. -/
structure SFieldMeta where
  name : String
  tags : List (String × String)
  pkgPath : String
  anonymous : Bool
deriving DecidableEq, Repr

/-- Go types (`reflect.Type`) for the value universe of the model.
`tTime` stands for `time.Time` (a struct kind treated atomically by
`mapStruct`); `tNamed` models a named, possibly recursive, type nominally. -/
inductive Ty where
  | tInt
  | tString
  | tBool
  | tPtr (elem : Ty)
  | tStruct (sname : String) (fields : List (SFieldMeta × Ty))
  | tMap (key : Ty) (val : Ty)
  | tSlice (elem : Ty)
  | tInterface
  | tTime
  | tNamed (n : String)

mutual

/-- Type identity (Go `==` on `reflect.Type`). -/
def tyBEq : Ty → Ty → Bool
  | .tInt, .tInt => true
  | .tString, .tString => true
  | .tBool, .tBool => true
  | .tPtr a, .tPtr b => tyBEq a b
  | .tStruct n1 f1, .tStruct n2 f2 => n1 == n2 && tyFieldsBEq f1 f2
  | .tMap k1 v1, .tMap k2 v2 => tyBEq k1 k2 && tyBEq v1 v2
  | .tSlice a, .tSlice b => tyBEq a b
  | .tInterface, .tInterface => true
  | .tTime, .tTime => true
  | .tNamed a, .tNamed b => a == b
  | _, _ => false

/-- Pointwise type identity on struct field lists. -/
def tyFieldsBEq : List (SFieldMeta × Ty) → List (SFieldMeta × Ty) → Bool
  | [], [] => true
  | (m1, t1) :: r1, (m2, t2) :: r2 => m1 == m2 && tyBEq t1 t2 && tyFieldsBEq r1 r2
  | _, _ => false

end

/-- Go values as seen through `reflect.Value`.  `invalid` is the zero
`reflect.Value` (`IsValid() == false`).  Pointer/map/slice values carry
`none` when nil, otherwise the address of their referent in the heap.
`vtime t` is a `time.Time` (struct kind, atomic payload). -/
inductive RVal where
  | invalid
  | vint (n : Int)
  | vstring (s : String)
  | vbool (b : Bool)
  | vstruct (sname : String) (fields : List (SFieldMeta × RVal))
  | vptr (elem : Ty) (a : Option Addr)
  | vmap (key : Ty) (val : Ty) (a : Option Addr)
  | vslice (elem : Ty) (a : Option Addr)
  | viface (inner : Option RVal)
  | vtime (t : Int)

/-- `reflect.Value.Kind()`. -/
def kindOf : RVal → Kind
  | .invalid => .invalid
  | .vint _ => .kint
  | .vstring _ => .kstring
  | .vbool _ => .kbool
  | .vstruct _ _ => .kstruct
  | .vptr _ _ => .kptr
  | .vmap _ _ _ => .kmap
  | .vslice _ _ => .kslice
  | .viface _ => .kinterface
  | .vtime _ => .kstruct

/-- `reflect.Value.IsValid()`. -/
def isValidV : RVal → Bool
  | .invalid => false
  | _ => true

/-- `reflect.Value.IsNil()` for the nillable kinds of the model. -/
def isNilV : RVal → Bool
  | .vptr _ none => true
  | .vmap _ _ none => true
  | .vslice _ none => true
  | .viface none => true
  | _ => false

/-- `reflect.Value.Pointer()` seen as `none` for the nil reference
(`checkCircular` tests `ptr == 0`). -/
def addrOf : RVal → Option Addr
  | .vptr _ a => a
  | .vmap _ _ a => a
  | .vslice _ a => a
  | _ => none

mutual

/-- `reflect.Value.Type()`. -/
def typeOf : RVal → Ty
  | .invalid => .tNamed "<invalid>"
  | .vint _ => .tInt
  | .vstring _ => .tString
  | .vbool _ => .tBool
  | .vstruct n fs => .tStruct n (typeOfFields fs)
  | .vptr e _ => .tPtr e
  | .vmap k v _ => .tMap k v
  | .vslice e _ => .tSlice e
  | .viface _ => .tInterface
  | .vtime _ => .tTime

/-- Types of a struct value's fields, preserving the field metadata. -/
def typeOfFields : List (SFieldMeta × RVal) → List (SFieldMeta × Ty)
  | [] => []
  | (m, v) :: r => (m, typeOf v) :: typeOfFields r

end

mutual

/-- `reflect.Zero(t)` / `reflect.New(t).Elem()`. -/
def zeroVal : Ty → RVal
  | .tInt => .vint 0
  | .tString => .vstring ""
  | .tBool => .vbool false
  | .tPtr e => .vptr e none
  | .tStruct n fs => .vstruct n (zeroFields fs)
  | .tMap k v => .vmap k v none
  | .tSlice e => .vslice e none
  | .tInterface => .viface none
  | .tTime => .vtime 0
  | .tNamed _ => .invalid

/-- Zero values of a struct type's fields. -/
def zeroFields : List (SFieldMeta × Ty) → List (SFieldMeta × RVal)
  | [] => []
  | (m, t) :: r => (m, zeroVal t) :: zeroFields r

end

mutual

/-- `reflect.Value.IsZero()`. -/
def isZeroV : RVal → Bool
  | .invalid => true
  | .vint n => n == 0
  | .vstring s => s == ""
  | .vbool b => b == false
  | .vstruct _ fs => isZeroFields fs
  | .vptr _ a => a.isNone
  | .vmap _ _ a => a.isNone
  | .vslice _ a => a.isNone
  | .viface i => i.isNone
  | .vtime t => t == 0

/-- `IsZero` on every field of a struct. -/
def isZeroFields : List (SFieldMeta × RVal) → Bool
  | [] => true
  | (_, v) :: r => isZeroV v && isZeroFields r

end

/-- Heap objects: a pointer's pointee, a map's entry list, a slice's
element list. -/
inductive HObj where
  | hval (v : RVal)
  | hmap (entries : List (RVal × RVal))
  | hslice (elems : List RVal)

abbrev Heap := Addr → Option HObj

/-- Heap update at one address. -/
def updateHeap (h : Heap) (a : Addr) (o : HObj) : Heap :=
  fun x => if x = a then some o else h x

/-- Dereference a pointer address (`reflect.Value.Elem()` on a non-nil
pointer); a dangling address yields the invalid value. -/
def readPointee (h : Heap) (a : Addr) : RVal :=
  match h a with
  | some (.hval v) => v
  | _ => .invalid

/-- Entries of the map object stored at an address. -/
def readMapEntries (h : Heap) (a : Addr) : List (RVal × RVal) :=
  match h a with
  | some (.hmap es) => es
  | _ => []

/-- Elements of the slice object stored at an address. -/
def readSliceElems (h : Heap) (a : Addr) : List RVal :=
  match h a with
  | some (.hslice es) => es
  | _ => []

/-- The error values of `mapper/errors.go`, plus shapes for the two
`fmt.Errorf` wrappers of the engine (`slice index %d: %w` in `mapSlice`,
`mapping completed with %d errors: %v` in `Mapper.Map`), the two
`Config.validate` failures, and `custom` for errors produced by
user-supplied converters or handlers. -/
inductive MErr where
  | nilPointer
  | unsupportedType
  | invalidDestination
  | typeMismatch
  | maxDepthExceeded
  | circularReference
  | custom (msg : String)
  | sliceIndex (i : Nat) (e : MErr)
  | summary (count : Nat) (first : MErr)
  | invalidMaxDepth (d : Int)
  | invalidMaxSliceCapacity (c : Int)
deriving DecidableEq, Repr

/-! ### `internal/reflectutil` -/

/-- `reflectutil.IsNillable`: kinds that can be nil. -/
def IsNillable : Kind → Bool
  | .kchan | .kfunc | .kinterface | .kmap | .kptr | .kslice => true
  | _ => false

/-- `reflectutil.IsPointerLike`: kinds whose identity is a memory address
(tracked by the circular-reference detector). -/
def IsPointerLike : Kind → Bool
  | .kptr | .kmap | .kslice | .kchan | .kfunc => true
  | _ => false

/-- `reflectutil.ToLower` (ASCII, on the characters of the model's
strings; Go operates on bytes, which coincides for ASCII field names). -/
def toLowerC (c : Char) : Char :=
  if 'A' ≤ c ∧ c ≤ 'Z' then Char.ofNat (c.toNat + 32) else c

/-- Character-list core of `reflectutil.EqualFold`. -/
def equalFoldL : List Char → List Char → Bool
  | [], [] => true
  | a :: as, b :: bs => toLowerC a == toLowerC b && equalFoldL as bs
  | _, _ => false

/-- `reflectutil.EqualFold`: case-insensitive comparison (length equality
is subsumed by the pairwise recursion). -/
def EqualFold (a b : String) : Bool :=
  equalFoldL a.toList b.toList

/-! ### Conversion rules of the host type system

`mapBasic` relies on Go's `Type.ConvertibleTo` / `Value.Convert`.  For
the basic kinds of this universe the Go rules are: identical types are
convertible; `int` is convertible to `string` (the conversion yields
the one-character string of that code point, `"�"` when the value is
not a valid code point); and every type is convertible to the empty
interface (the conversion boxes the value).  No other cross-family
conversion among `int`/`string`/`bool` exists in Go. -/

/-- Go `Type.ConvertibleTo` restricted to this universe. -/
def convertibleTo (src dst : Ty) : Bool :=
  if tyBEq src dst then true
  else
    match src, dst with
    | .tInt, .tString => true
    | _, .tInterface => true
    | _, _ => false

/-- Go `Value.Convert`. -/
def convertVal (v : RVal) (dst : Ty) : RVal :=
  if tyBEq (typeOf v) dst then v
  else
    match v, dst with
    | .vint n, .tString =>
        if 0 ≤ n ∧ n.toNat.isValidChar then .vstring (String.mk [Char.ofNat n.toNat])
        else .vstring (String.mk [Char.ofNat 0xFFFD])
    | w, .tInterface => .viface (some w)
    | _, _ => v

/-- Go `Type.AssignableTo` restricted to this universe: identical types,
or assignment of any value into an empty-interface destination. -/
def assignableTo (src dst : Ty) : Bool :=
  tyBEq src dst || tyBEq dst .tInterface

/-! ### `Config`, functional options, `NewMapper`, `Config.validate` -/

/-- `DefaultMaxDepth` (config constants). -/
def DefaultMaxDepth : Int := 32

/-- `NoDepthLimit` (-1 means unlimited depth). -/
def NoDepthLimit : Int := -1

/-- `DefaultTagName`. -/
def DefaultTagName : String := "mapper"

/-- `ConverterFunc`: `func(src reflect.Value) (reflect.Value, error)`. -/
abbrev ConverterFunc := RVal → RVal × Option MErr

/-- `FieldNameMapperFunc`. -/
abbrev FieldNameMapperFunc := String → String

/-- `ErrorHandlerFunc`: returns `none` (Go nil) to suppress the error. -/
abbrev ErrorHandlerFunc := MErr → String → String → Option MErr

/-- `Config` (`config.go`); the converter map is an association list
keyed by type identity, optional function fields are `Option`s. -/
structure Config where
  MaxDepth : Int
  TagName : String
  IgnoreUnexported : Bool
  DeepCopy : Bool
  ZeroFields : Bool
  IgnoreNilFields : Bool
  CaseSensitive : Bool
  UseJSONTag : Bool
  SkipCircularCheck : Bool
  CustomConverters : List (Ty × ConverterFunc)
  FieldNameMapper : Option FieldNameMapperFunc
  ErrorHandler : Option ErrorHandlerFunc
  TimeLayout : String
  MaxSliceCapacity : Int
  AllowPrivateFields : Bool

/-- Lookup in the converter map (`cfg.CustomConverters[src.Type()]`). -/
def lookupConverter : List (Ty × ConverterFunc) → Ty → Option ConverterFunc
  | [], _ => none
  | (t, f) :: r, ty => if tyBEq t ty then some f else lookupConverter r ty

/-- Map-style insert/overwrite for the converter map
(`c.CustomConverters[typ] = converter`). -/
def insertConverter : List (Ty × ConverterFunc) → Ty → ConverterFunc →
    List (Ty × ConverterFunc)
  | [], ty, f => [(ty, f)]
  | (t, g) :: r, ty, f =>
      if tyBEq t ty then (t, f) :: r else (t, g) :: insertConverter r ty f

/-- `Option` (functional option, `options.go`): mutates a `Config`. -/
abbrev OptionF := Config → Config

/-- `WithMaxDepth`. -/
def WithMaxDepth (depth : Int) : OptionF := fun c => { c with MaxDepth := depth }

/-- `WithTagName`. -/
def WithTagName (tag : String) : OptionF := fun c => { c with TagName := tag }

/-- `WithIgnoreUnexported`. -/
def WithIgnoreUnexported (ignore : Bool) : OptionF :=
  fun c => { c with IgnoreUnexported := ignore }

/-- `WithDeepCopy`. -/
def WithDeepCopy (deep : Bool) : OptionF := fun c => { c with DeepCopy := deep }

/-- `WithZeroFields`. -/
def WithZeroFields (zero : Bool) : OptionF := fun c => { c with ZeroFields := zero }

/-- `WithIgnoreNilFields`. -/
def WithIgnoreNilFields (ignore : Bool) : OptionF :=
  fun c => { c with IgnoreNilFields := ignore }

/-- `WithCaseSensitive`. -/
def WithCaseSensitive (sensitive : Bool) : OptionF :=
  fun c => { c with CaseSensitive := sensitive }

/-- `WithJSONTag`. -/
def WithJSONTag (use : Bool) : OptionF := fun c => { c with UseJSONTag := use }

/-- `WithCustomConverter` (the nil-map initialization of the Go source is
a no-op in the list model). -/
def WithCustomConverter (typ : Ty) (converter : ConverterFunc) : OptionF :=
  fun c => { c with CustomConverters := insertConverter c.CustomConverters typ converter }

/-- `WithFieldNameMapper`. -/
def WithFieldNameMapper (m : FieldNameMapperFunc) : OptionF :=
  fun c => { c with FieldNameMapper := some m }

/-- `WithErrorHandler`. -/
def WithErrorHandler (handler : ErrorHandlerFunc) : OptionF :=
  fun c => { c with ErrorHandler := some handler }

/-- `WithSkipCircularCheck`. -/
def WithSkipCircularCheck (skip : Bool) : OptionF :=
  fun c => { c with SkipCircularCheck := skip }

/-- `WithTimeLayout`. -/
def WithTimeLayout (layout : String) : OptionF :=
  fun c => { c with TimeLayout := layout }

/-- `WithMaxSliceCapacity`. -/
def WithMaxSliceCapacity (capacity : Int) : OptionF :=
  fun c => { c with MaxSliceCapacity := capacity }

/-- `WithAllowPrivateFields`. -/
def WithAllowPrivateFields (allow : Bool) : OptionF :=
  fun c => { c with AllowPrivateFields := allow }

/-- The base `Config` literal of `NewMapper` (`mapper.go`): the fields it
does not mention take Go's zero value. -/
def newMapperBaseConfig : Config :=
  { MaxDepth := DefaultMaxDepth
    TagName := ""
    IgnoreUnexported := true
    DeepCopy := true
    ZeroFields := false
    IgnoreNilFields := false
    CaseSensitive := true
    UseJSONTag := false
    SkipCircularCheck := false
    CustomConverters := []
    FieldNameMapper := none
    ErrorHandler := none
    TimeLayout := ""
    MaxSliceCapacity := 0
    AllowPrivateFields := false }

/-- `NewMapper(opts...)`: applies each option to the base config.  (The
`sync.Pool` of contexts is an allocation optimization; the per-call reset
it requires is modelled inside `Map`.)  Note the Go function applies the
options and returns — `Config.validate` is not called. -/
def NewMapper (opts : List OptionF) : Config :=
  opts.foldl (fun c o => o c) newMapperBaseConfig

/-- `Config.validate` (`config.go`). -/
def Config.validate (c : Config) : Option MErr :=
  if c.MaxDepth < NoDepthLimit then some (.invalidMaxDepth c.MaxDepth)
  else if c.MaxSliceCapacity < 0 then some (.invalidMaxSliceCapacity c.MaxSliceCapacity)
  else none

/-! ### The operation context (`context.go`) -/

/-- The mutable per-operation state of `context` (visited set, depth,
accumulated errors) together with the heap of the modelled memory and an
allocation counter (`reflect.New`/`MakeMap`/`MakeSlice` yield fresh
addresses). -/
structure MState where
  heap : Heap
  nextAddr : Addr
  visited : List Addr
  depth : Int
  errors : List MErr

/-- Allocate a fresh heap object, returning its address. -/
def allocH (s : MState) (o : HObj) : Addr × MState :=
  (s.nextAddr,
   { s with heap := updateHeap s.heap s.nextAddr o, nextAddr := s.nextAddr + 1 })

/-- `context.checkCircular`: ignores invalid and non-pointer-like values
and nil references; otherwise fails with `ErrCircularReference` when the
address was already visited, else records it. -/
def checkCircular (v : RVal) (s : MState) : Option MErr × MState :=
  if ¬ (isValidV v = true) ∨ ¬ (IsPointerLike (kindOf v) = true) then (none, s)
  else
    match addrOf v with
    | none => (none, s)
    | some ptr =>
        if ptr ∈ s.visited then (some .circularReference, s)
        else (none, { s with visited := ptr :: s.visited })

/-- `context.addError` (call sites pass non-nil errors). -/
def addError (e : MErr) (s : MState) : MState :=
  { s with errors := s.errors ++ [e] }

/-! ### Field resolution (`getDestFieldName`, `findDstField`) -/

/-- `reflect.StructTag.Get`: the tag value under a key, `""` if absent. -/
def tagGet : List (String × String) → String → String
  | [], _ => ""
  | (k, v) :: r, key => if k = key then v else tagGet r key

/-- `context.getDestFieldName`: primary tag, then JSON tag (if enabled),
then the field-name mapper, then the declared name. -/
def getDestFieldName (cfg : Config) (srcField : SFieldMeta) : String :=
  if cfg.TagName ≠ "" ∧ tagGet srcField.tags cfg.TagName ≠ "" ∧
      tagGet srcField.tags cfg.TagName ≠ "-" then
    tagGet srcField.tags cfg.TagName
  else if cfg.UseJSONTag = true ∧ tagGet srcField.tags "json" ≠ "" ∧
      tagGet srcField.tags "json" ≠ "-" then
    tagGet srcField.tags "json"
  else
    match cfg.FieldNameMapper with
    | some m => m srcField.name
    | none => srcField.name

/-- `reflect.Type.FieldByName` on the (flat) struct model: first field
with exactly the given name. -/
def fieldByName : List (SFieldMeta × Ty) → String → Option SFieldMeta
  | [], _ => none
  | (m, _) :: r, n => if m.name = n then some m else fieldByName r n

/-- The case-insensitive linear scan of `findDstField`: first field whose
name matches up to case. -/
def findFoldField : List (SFieldMeta × Ty) → String → Option SFieldMeta
  | [], _ => none
  | (m, _) :: r, n => if EqualFold m.name n = true then some m else findFoldField r n

/-- `context.findDstField`: exact lookup first, then (with
case-sensitivity disabled) the case-insensitive scan. -/
def findDstField (cfg : Config) (dstType : Ty) (fieldName : String) : Option SFieldMeta :=
  match dstType with
  | .tStruct _ fields =>
      match fieldByName fields fieldName with
      | some f => some f
      | none =>
          if cfg.CaseSensitive = false then findFoldField fields fieldName else none
  | _ => none

/-- Read a field of a struct value by name (`dst.FieldByIndex`; field
names are unique within a Go struct). -/
def getStructField : List (SFieldMeta × RVal) → String → RVal
  | [], _ => .invalid
  | (m, v) :: r, n => if m.name = n then v else getStructField r n

/-- Write a field of a struct value by name (in-place field mutation). -/
def setStructField : List (SFieldMeta × RVal) → String → RVal → List (SFieldMeta × RVal)
  | [], _, _ => []
  | (m, v) :: r, n, nv =>
      if m.name = n then (m, nv) :: r else (m, v) :: setStructField r n nv

/-- Go map key equality for the comparable kinds of this universe. -/
def keyEq : RVal → RVal → Bool
  | .vint a, .vint b => a == b
  | .vstring a, .vstring b => a == b
  | .vbool a, .vbool b => a == b
  | .vtime a, .vtime b => a == b
  | _, _ => false

/-- `reflect.Value.SetMapIndex`: overwrite the entry with an equal key,
else append. -/
def setMapEntry : List (RVal × RVal) → RVal → RVal → List (RVal × RVal)
  | [], k, v => [(k, v)]
  | (k0, v0) :: r, k, v =>
      if keyEq k0 k = true then (k0, v) :: r else (k0, v0) :: setMapEntry r k v

/-- Length of a (possibly nil) slice value (`dst.Len()`). -/
def sliceLen (h : Heap) : RVal → Nat
  | .vslice _ (some a) => (readSliceElems h a).length
  | _ => 0

/-- `context.mapBasic`: assignment and conversion between basic types.
Its silent skips and the absence of state access are faithful to the
source; it is the only handler without recursion. -/
def mapBasic (dst : RVal) (cs : Bool) (src : RVal) : RVal × Option MErr :=
  if cs = false then (dst, none)
  else if tyBEq (typeOf src) (typeOf dst) = true then (src, none)
  else if convertibleTo (typeOf src) (typeOf dst) = true then
    (convertVal src (typeOf dst), none)
  else (dst, none)

/-! ### The recursive engine (`mapValue` and the shape handlers)

Every function takes a fuel argument and consumes one unit per call;
`none` means the fuel ran out.  Each returns the updated destination
value together with the Go error return, and threads the state. -/

mutual

/-- `context.mapValue`: validity check, depth control, nil handling,
circular detection, custom converters, then dispatch by source kind
(with the paired `ctx.depth++` / deferred `ctx.depth--`). -/
def mapValue (cfg : Config) : Nat → RVal → Bool → RVal → MState →
    Option ((RVal × Option MErr) × MState)
  | 0, _, _, _, _ => none
  | fuel + 1, dst, cs, src, s =>
    if isValidV src = false then some ((dst, none), s)
    else if cfg.MaxDepth ≠ NoDepthLimit ∧ s.depth > cfg.MaxDepth then
      some ((dst, some .maxDepthExceeded), s)
    else if IsNillable (kindOf src) = true ∧ isNilV src = true then
      if cfg.IgnoreNilFields = true then some ((dst, none), s)
      else if cs = true ∧ IsNillable (kindOf dst) = true then
        some ((zeroVal (typeOf dst), none), s)
      else some ((dst, none), s)
    else
      match (if cfg.SkipCircularCheck = false ∧ IsPointerLike (kindOf src) = true then
               checkCircular src s
             else (none, s)) with
      | (some e, s1) => some ((dst, some e), s1)
      | (none, s1) =>
        match lookupConverter cfg.CustomConverters (typeOf src) with
        | some converter =>
            match converter src with
            | (_, some e) => some ((dst, some e), s1)
            | (converted, none) =>
                if cs = true ∧ assignableTo (typeOf converted) (typeOf dst) = true then
                  some ((converted, none), s1)
                else some ((dst, none), s1)
        | none =>
          let s2 := { s1 with depth := s1.depth + 1 }
          let r :=
            match kindOf src with
            | .kptr => mapPointer cfg fuel dst cs src s2
            | .kstruct => mapStruct cfg fuel dst cs src s2
            | .kmap => mapMap cfg fuel dst cs src s2
            | .kslice => mapSlice cfg fuel dst cs src s2
            | .karray => mapSlice cfg fuel dst cs src s2
            | .kinterface => mapInterface cfg fuel dst cs src s2
            | _ => some (mapBasic dst cs src, s2)
          match r with
          | none => none
          | some (p, s3) => some (p, { s3 with depth := s3.depth - 1 })

/-- `context.mapPointer`: nil handling, then dereference; allocate a
fresh target when the destination pointer is nil and settable. -/
def mapPointer (cfg : Config) : Nat → RVal → Bool → RVal → MState →
    Option ((RVal × Option MErr) × MState)
  | 0, _, _, _, _ => none
  | fuel + 1, dst, cs, src, s =>
    if isNilV src = true then
      if cfg.IgnoreNilFields = true then some ((dst, none), s)
      else if cs = true then some ((zeroVal (typeOf dst), none), s)
      else some ((dst, none), s)
    else
      match src with
      | .vptr _ (some a) =>
        let srcElem := readPointee s.heap a
        match dst with
        | .vptr et p =>
            let dst1s1 :=
              if p = none ∧ cs = true then
                let as' := allocH s (.hval (zeroVal et))
                (RVal.vptr et (some as'.1), as'.2)
              else (dst, s)
            match dst1s1.1 with
            | .vptr et1 (some ad) =>
                match mapValue cfg fuel (readPointee dst1s1.2.heap ad) true srcElem dst1s1.2 with
                | none => none
                | some ((pe, e), s2) =>
                    some ((RVal.vptr et1 (some ad), e),
                          { s2 with heap := updateHeap s2.heap ad (.hval pe) })
            | _ =>
                match mapValue cfg fuel .invalid false srcElem dst1s1.2 with
                | none => none
                | some ((_, e), s2) => some ((dst1s1.1, e), s2)
        | _ =>
            mapValue cfg fuel dst cs srcElem s
      | _ => some ((dst, none), s)

/-- `context.mapStruct`: pointer-destination unwrap, the `time.Time`
special case, then the field loop (`mapStructFields`).  It never returns
an error itself — field failures go through the soft-error path. -/
def mapStruct (cfg : Config) : Nat → RVal → Bool → RVal → MState →
    Option ((RVal × Option MErr) × MState)
  | 0, _, _, _, _ => none
  | fuel + 1, dst, cs, src, s =>
    match dst with
    | .vptr et p =>
        let dst1s1 :=
          if p = none ∧ cs = true then
            let as' := allocH s (.hval (zeroVal et))
            (RVal.vptr et (some as'.1), as'.2)
          else (dst, s)
        match dst1s1.1 with
        | .vptr et1 (some ad) =>
            match mapStruct cfg fuel (readPointee dst1s1.2.heap ad) true src dst1s1.2 with
            | none => none
            | some ((pe, e), s2) =>
                some ((RVal.vptr et1 (some ad), e),
                      { s2 with heap := updateHeap s2.heap ad (.hval pe) })
        | _ =>
            match mapStruct cfg fuel .invalid false src dst1s1.2 with
            | none => none
            | some ((_, e), s2) => some ((dst1s1.1, e), s2)
    | _ =>
      if ¬ kindOf dst = .kstruct then some ((dst, none), s)
      else if tyBEq (typeOf src) .tTime = true then
        if tyBEq (typeOf dst) (typeOf src) = true ∧ cs = true then some ((src, none), s)
        else some ((dst, none), s)
      else
        match src, dst with
        | .vstruct _ sfs, .vstruct dn dfs =>
            match mapStructFields cfg fuel sfs (typeOf (.vstruct dn dfs)) dfs cs s with
            | none => none
            | some (dfs', s') => some ((.vstruct dn dfs', none), s')
        | _, _ => some ((dst, none), s)

/-- The field loop of `context.mapStruct`, in declaration order:
unexported-field skip, tag filtering, name resolution, settability,
zero-field propagation, recursive mapping with soft-error recording. -/
def mapStructFields (cfg : Config) : Nat → List (SFieldMeta × RVal) → Ty →
    List (SFieldMeta × RVal) → Bool → MState →
    Option (List (SFieldMeta × RVal) × MState)
  | 0, _, _, _, _, _ => none
  | _ + 1, [], _, dfs, _, s => some (dfs, s)
  | fuel + 1, (sf, srcValue) :: rest, dstTy, dfs, cs, s =>
    if cfg.IgnoreUnexported = true ∧ sf.pkgPath ≠ "" ∧ sf.anonymous = false then
      mapStructFields cfg fuel rest dstTy dfs cs s
    else if cfg.TagName ≠ "" ∧ (tagGet sf.tags cfg.TagName = "" ∨
        tagGet sf.tags cfg.TagName = "-") then
      mapStructFields cfg fuel rest dstTy dfs cs s
    else
      match findDstField cfg dstTy (getDestFieldName cfg sf) with
      | none => mapStructFields cfg fuel rest dstTy dfs cs s
      | some dstField =>
        -- a field of the destination struct is settable iff the struct
        -- is settable and the field is exported
        if ¬ (cs = true ∧ dstField.pkgPath = "") then
          mapStructFields cfg fuel rest dstTy dfs cs s
        else if cfg.ZeroFields = true ∧ isZeroV srcValue = true then
          mapStructFields cfg fuel rest dstTy
            (setStructField dfs dstField.name
              (zeroVal (typeOf (getStructField dfs dstField.name)))) cs s
        else
          match mapValue cfg fuel (getStructField dfs dstField.name) true srcValue s with
          | none => none
          | some ((dv', e), s1) =>
            let s2 :=
              match e with
              | none => s1
              | some err =>
                match cfg.ErrorHandler with
                | none => addError err s1
                | some handler =>
                    match handler err sf.name dstField.name with
                    | none => s1
                    | some err2 => addError err2 s1
            mapStructFields cfg fuel rest dstTy (setStructField dfs dstField.name dv') cs s2

/-- `context.mapMap`: allocate the destination map when nil and settable,
then map every key/value pair (`mapMapEntries`). -/
def mapMap (cfg : Config) : Nat → RVal → Bool → RVal → MState →
    Option ((RVal × Option MErr) × MState)
  | 0, _, _, _, _ => none
  | fuel + 1, dst, cs, src, s =>
    if ¬ (kindOf src = .kmap ∧ kindOf dst = .kmap) then some ((dst, none), s)
    else
      let dst1s1 :=
        if isNilV dst = true ∧ cs = true then
          match dst with
          | .vmap kt vt _ =>
              let as' := allocH s (.hmap [])
              (RVal.vmap kt vt (some as'.1), as'.2)
          | _ => (dst, s)
        else (dst, s)
      match dst1s1.1 with
      | .vmap kt vt (some a) =>
          let entries :=
            match src with
            | .vmap _ _ (some sa) => readMapEntries dst1s1.2.heap sa
            | _ => []
          match mapMapEntries cfg fuel kt vt a entries dst1s1.2 with
          | none => none
          | some s2 => some ((RVal.vmap kt vt (some a), none), s2)
      | _ =>
          -- destination map still nil (not settable): iterating would
          -- panic in Go on the first SetMapIndex; no claim reaches this
          some ((dst1s1.1, none), dst1s1.2)

/-- The entry loop of `context.mapMap`: fresh zero key/value slots, an
independent recursion into each, soft error and skip on failure,
`SetMapIndex` on success. -/
def mapMapEntries (cfg : Config) : Nat → Ty → Ty → Addr → List (RVal × RVal) →
    MState → Option MState
  | 0, _, _, _, _, _ => none
  | _ + 1, _, _, _, [], s => some s
  | fuel + 1, kt, vt, a, (k, v) :: rest, s =>
    match mapValue cfg fuel (zeroVal kt) true k s with
    | none => none
    | some ((k', e1), s1) =>
      match e1 with
      | some err => mapMapEntries cfg fuel kt vt a rest (addError err s1)
      | none =>
        match mapValue cfg fuel (zeroVal vt) true v s1 with
        | none => none
        | some ((v', e2), s2) =>
          match e2 with
          | some err => mapMapEntries cfg fuel kt vt a rest (addError err s2)
          | none =>
              let h2 := updateHeap s2.heap a
                (.hmap (setMapEntry (readMapEntries s2.heap a) k' v'))
              mapMapEntries cfg fuel kt vt a rest { s2 with heap := h2 }

/-- `context.mapSlice`: reallocate a growable destination that is nil or
too short, then map elementwise up to the common length
(`mapSliceElems`). -/
def mapSlice (cfg : Config) : Nat → RVal → Bool → RVal → MState →
    Option ((RVal × Option MErr) × MState)
  | 0, _, _, _, _ => none
  | fuel + 1, dst, cs, src, s =>
    if ¬ (kindOf dst = .kslice ∨ kindOf dst = .karray) then some ((dst, none), s)
    else
      let srcLen :=
        match src with
        | .vslice _ (some sa) => (readSliceElems s.heap sa).length
        | _ => 0
      let dst1s1 :=
        if kindOf dst = .kslice ∧ (isNilV dst = true ∨ sliceLen s.heap dst < srcLen) ∧
            cs = true then
          match dst with
          | .vslice et _ =>
              let as' := allocH s (.hslice (List.replicate srcLen (zeroVal et)))
              (RVal.vslice et (some as'.1), as'.2)
          | _ => (dst, s)
        else (dst, s)
      match dst1s1.1, src with
      | .vslice et (some da), .vslice _ (some sa) =>
          match mapSliceElems cfg fuel da sa 0
              (min (sliceLen dst1s1.2.heap dst1s1.1) srcLen) dst1s1.2 with
          | none => none
          | some s2 => some ((RVal.vslice et (some da), none), s2)
      | _, _ => some ((dst1s1.1, none), dst1s1.2)

/-- The element loop of `context.mapSlice`: recurse on each index pair,
wrapping failures with the index as soft errors. -/
def mapSliceElems (cfg : Config) : Nat → Addr → Addr → Nat → Nat → MState →
    Option MState
  | 0, _, _, _, _, _ => none
  | _ + 1, _, _, _, 0, s => some s
  | fuel + 1, da, sa, i, r + 1, s =>
    match mapValue cfg fuel ((readSliceElems s.heap da).getD i .invalid) true
        ((readSliceElems s.heap sa).getD i .invalid) s with
    | none => none
    | some ((dv', e), s1) =>
      let h1 := updateHeap s1.heap da (.hslice ((readSliceElems s1.heap da).set i dv'))
      let s2 := { s1 with heap := h1 }
      let s3 :=
        match e with
        | some err => addError (.sliceIndex i err) s2
        | none => s2
      mapSliceElems cfg fuel da sa (i + 1) r s3

/-- `context.mapInterface`: unwrap the source's held value; for a dynamic
destination, build an independently-typed holder, recurse, and store it. -/
def mapInterface (cfg : Config) : Nat → RVal → Bool → RVal → MState →
    Option ((RVal × Option MErr) × MState)
  | 0, _, _, _, _ => none
  | fuel + 1, dst, cs, src, s =>
    if ¬ kindOf src = .kinterface then some ((dst, none), s)
    else
      let srcElem :=
        match src with
        | .viface (some v) => v
        | _ => RVal.invalid
      if ¬ kindOf dst = .kinterface then
        mapValue cfg fuel dst cs srcElem s
      else if isValidV srcElem = false then some ((dst, none), s)
      else
        match mapValue cfg fuel (zeroVal (typeOf srcElem)) true srcElem s with
        | none => none
        | some ((nd, e), s1) =>
          match e with
          | some err => some ((dst, some err), s1)
          | none =>
              if cs = true then some ((.viface (some nd), none), s1)
              else some ((dst, none), s1)

end

/-! ### The entry points (`Mapper.Map`, `Copy`) -/

/-- The final result inspection of `Mapper.Map`: a fatal error is
returned as is; otherwise accumulated soft errors produce the single
summarizing failure referencing their count and the first of them. -/
def mapResult (e : Option MErr) (s : MState) : Option MErr :=
  match e with
  | some err => some err
  | none =>
    match s.errors with
    | [] => none
    | e0 :: _ => some (.summary s.errors.length e0)

/-- `Mapper.Map(dst, src)`: nil-argument check (`ErrNilPointer`),
pointer-kind check on the destination (`ErrInvalidDestination`), context
reset, the top-level `mapValue` on `dstVal.Elem()`, and the final error
inspection.  The arguments are `Option RVal` because a Go `interface{}`
argument may be nil; a typed nil pointer is `some (vptr _ none)`, whose
`Elem()` is the invalid value. -/
def Map (cfg : Config) (fuel : Nat) (dst src : Option RVal) (s0 : MState) :
    Option (Option MErr × MState) :=
  if dst.isNone || src.isNone then some (some .nilPointer, s0)
  else
    let dstVal := dst.getD .invalid
    let srcVal := src.getD .invalid
    if ¬ kindOf dstVal = .kptr then some (some .invalidDestination, s0)
    else
      let s1 : MState := { s0 with visited := [], errors := [], depth := 0 }
      match dstVal with
      | .vptr _ (some a) =>
          match mapValue cfg fuel (readPointee s1.heap a) true srcVal s1 with
          | none => none
          | some ((de, e), s2) =>
              let s3 := { s2 with heap := updateHeap s2.heap a (.hval de) }
              some (mapResult e s3, s3)
      | _ =>
          match mapValue cfg fuel .invalid false srcVal s1 with
          | none => none
          | some ((_, e), s2) => some (mapResult e s2, s2)

/-- `Copy(dst, src, opts...)`: one-shot `NewMapper` plus `Map`. -/
def Copy (opts : List OptionF) (fuel : Nat) (dst src : Option RVal) (s : MState) :
    Option (Option MErr × MState) :=
  Map (NewMapper opts) fuel dst src s

/-! ### Concrete scenarios used by the claims -/

/-- Metadata of a plain exported, untagged, non-embedded field. -/
def pMeta (n : String) : SFieldMeta := ⟨n, [], "", false⟩

/-- Build an initial state from a heap (fresh addresses start at 100,
above every address the scenarios use). -/
def initState (h : Heap) : MState :=
  { heap := h, nextAddr := 100, visited := [], depth := 0, errors := [] }

/-- The `{Name string; Age int}` struct type of the spec's concrete
scenario. -/
def personTy : Ty := .tStruct "Person" [(pMeta "Name", .tString), (pMeta "Age", .tInt)]

/-- The source value `{Name: "Alice", Age: 30}`. -/
def srcPerson : RVal :=
  .vstruct "Person" [(pMeta "Name", .vstring "Alice"), (pMeta "Age", .vint 30)]

/-- Heap for the Person scenario: the caller's zero-valued destination
variable lives at address 0 (the `&dst` argument points to it). -/
def heapPerson : Heap :=
  fun a => if a = 0 then some (.hval (zeroVal personTy)) else none

/-- `map[string]string` destination type of the map scenario. -/
def dstMapTy : Ty := .tMap .tString .tString

/-- Heap for the map scenario: address 0 holds the nil destination map
variable, address 1 the source map `{"a": 1, "b": 2}`. -/
def heapMapScenario : Heap :=
  fun a =>
    if a = 0 then some (.hval (zeroVal dstMapTy))
    else if a = 1 then some (.hmap [(.vstring "a", .vint 1), (.vstring "b", .vint 2)])
    else none

/-- The three-field struct type of the soft-error scenario. -/
def triTy : Ty :=
  .tStruct "Tri" [(pMeta "Name", .tString), (pMeta "Flag", .tBool), (pMeta "Age", .tInt)]

/-- A three-field source value whose `Flag` field (of type `bool`) will
go through the failing converter. -/
def triSrc (a : String) (n : Int) : RVal :=
  .vstruct "Tri" [(pMeta "Name", .vstring a), (pMeta "Flag", .vbool true), (pMeta "Age", .vint n)]

/-- A converter that always reports a conversion failure. -/
def badConv : ConverterFunc := fun v => (v, some (.custom "boom"))

/-- Mapper configuration with the failing `bool` converter registered. -/
def cfgTri : Config := NewMapper [WithCustomConverter .tBool badConv]

/-- Heap with a zero-valued `Tri` destination at address 0. -/
def heapTri : Heap := fun a => if a = 0 then some (.hval (zeroVal triTy)) else none

/-- A source field declared `FullName` but tagged `mapper:"name"`. -/
def fTagged : SFieldMeta := ⟨"FullName", [("mapper", "name")], "", false⟩

/-- Destination fields for the case-folding scenario: no field is named
`Name` exactly, and both `NAME` and `name` match it up to case, `NAME`
being declared first. -/
def dstFieldsFold : List (SFieldMeta × Ty) :=
  [(pMeta "Other", .tInt), (pMeta "NAME", .tString), (pMeta "name", .tString)]

/-- Struct type with one exported and one unexported field (`PkgPath`
non-empty marks the field unexported). -/
def privTy : Ty :=
  .tStruct "Priv" [(pMeta "Name", .tString), (⟨"secret", [], "mapper", false⟩, .tInt)]

/-- Source value with the unexported field set to 9. -/
def privSrc : RVal :=
  .vstruct "Priv" [(pMeta "Name", .vstring "x"), (⟨"secret", [], "mapper", false⟩, .vint 9)]

/-- Heap with a zero-valued `Priv` destination at address 0. -/
def heapPriv : Heap := fun a => if a = 0 then some (.hval (zeroVal privTy)) else none

/-- Struct type with two `*int` fields, for the shared-pointer scenario. -/
def shTy : Ty := .tStruct "Sh" [(pMeta "P", .tPtr .tInt), (pMeta "Q", .tPtr .tInt)]

/-- Source struct whose two pointer fields reference the same cell
(address 1): sharing without a cycle. -/
def shSrc : RVal :=
  .vstruct "Sh" [(pMeta "P", .vptr .tInt (some 1)), (pMeta "Q", .vptr .tInt (some 1))]

/-- Heap for the sharing scenario: destination at 0, the shared `int`
cell (value 7) at 1. -/
def heapSh : Heap :=
  fun a =>
    if a = 0 then some (.hval (zeroVal shTy))
    else if a = 1 then some (.hval (.vint 7)) else none

/-- The type of a chain of `r` pointers over `int`. -/
def chainTy : Nat → Ty
  | 0 => .tInt
  | r + 1 => .tPtr (chainTy r)

/-- A source nested to depth `r`: `r` pointers ending at the int 7.
`chainVal (r+1)` points to heap address `r+1`, whose cell holds
`chainVal r`. -/
def chainVal : Nat → RVal
  | 0 => .vint 7
  | r + 1 => .vptr (chainTy r) (some (r + 1))

/-- Heap of the chain scenario: the destination int variable at address
0, and cell `a ≥ 1` holding `chainVal (a-1)`. -/
def chainHeapFn : Heap :=
  fun a => if a = 0 then some (.hval (.vint 0)) else some (.hval (chainVal (a - 1)))

/-- Configuration with maximum depth `M` (a non-negative bound, never
the `NoDepthLimit` sentinel). -/
def cfgDepth (M : Nat) : Config := NewMapper [WithMaxDepth (M : Int)]

/-- Configuration with the unlimited-depth sentinel. -/
def cfgNoLimit : Config := NewMapper [WithMaxDepth NoDepthLimit]

/-- Heap of the pointer-cycle scenario: addresses `0 .. n-1` form a
cycle of `n` pointers of the self-referential named type `type P *P`
(cell `a` points to `(a+1) % n`); the destination int variable lives at
address `n`. -/
def cycleHeapFn (n : Nat) : Heap :=
  fun a =>
    if a < n then some (.hval (.vptr (.tNamed "P") (some ((a + 1) % n))))
    else if a = n then some (.hval (.vint 0)) else none

/-- The cycle source: the pointer stored at cell 0. -/
def cycleVal (n : Nat) (j : Nat) : RVal := .vptr (.tNamed "P") (some (j % n))

/-! ## Theorems about the claims -/

/-- C5: copying the source struct `{Name: "Alice", Age: 30}` into a
zero-valued destination of the identical struct type with default
options (no options passed) returns success and leaves the destination
equal to `{Name: "Alice", Age: 30}`. -/
theorem claim_C5_basic_struct_copy :
    (Map (NewMapper []) 10 (some (.vptr personTy (some 0))) (some srcPerson)
        (initState heapPerson)).map (fun r => (r.1, readPointee r.2.heap 0)) =
      some (none, srcPerson) := rfl

set_option maxHeartbeats 3200000 in
/-- C6 counterexample: copying the map `{"a": 1, "b": 2}` (int values)
into a nil `map[string]string` destination with no converter registered
succeeds and leaves the destination map with 2 entries — not empty as
the claim states (Go's `int` is convertible to `string`). -/
theorem claim_C6_counterexample :
    ((Map (NewMapper []) 12 (some (.vptr dstMapTy (some 0)))
        (some (.vmap .tString .tInt (some 1))) (initState heapMapScenario)).map
        (fun r => (r.1,
          match readPointee r.2.heap 0 with
          | .vmap _ _ (some a) => some (readMapEntries r.2.heap a).length
          | _ => none)) =
      some (none, some 2)) ∧ some 2 ≠ some (0 : Nat) :=
  ⟨rfl, by decide⟩

set_option maxHeartbeats 3200000 in
/-- C6 amended: each `int` entry is converted by Go's native int→string
conversion (the one-character string of the code point), so the
destination ends with `{"a": "\x01", "b": "\x02"}` and the call
succeeds. -/
theorem claim_C6_amended :
    (Map (NewMapper []) 12 (some (.vptr dstMapTy (some 0)))
        (some (.vmap .tString .tInt (some 1))) (initState heapMapScenario)).map
        (fun r => (r.1,
          match readPointee r.2.heap 0 with
          | .vmap _ _ (some a) => some (readMapEntries r.2.heap a)
          | _ => none)) =
      some (none, some [(.vstring "a", .vstring "\x01"), (.vstring "b", .vstring "\x02")]) :=
  rfl

set_option maxHeartbeats 3200000 in
/-- C4: with exactly one of three struct fields (the `bool` field, via a
registered failing converter) triggering a reported conversion failure,
the other two fields are still populated in the destination and the
top-level call returns the single summarizing failure referencing the
accumulated count (1) and the first recorded soft error; moreover the
final inspection succeeds exactly when no fatal error occurred and no
soft errors were accumulated. -/
theorem claim_C4_soft_error_accumulation :
    (∀ (a : String) (n : Int),
      (Map cfgTri 10 (some (.vptr triTy (some 0))) (some (triSrc a n))
          (initState heapTri)).map (fun r => (r.1, readPointee r.2.heap 0)) =
        some (some (.summary 1 (.custom "boom")),
          .vstruct "Tri" [(pMeta "Name", .vstring a), (pMeta "Flag", .vbool false),
            (pMeta "Age", .vint n)])) ∧
    (∀ (a : String) (n : Int),
      (Map (NewMapper []) 10 (some (.vptr triTy (some 0))) (some (triSrc a n))
          (initState heapTri)).map Prod.fst = some none) ∧
    (∀ (e : Option MErr) (s : MState), mapResult e s = none ↔ e = none ∧ s.errors = []) :=
  ⟨fun _ _ => rfl, fun _ _ => rfl, by
    intro e s
    cases e with
    | some err => simp [mapResult]
    | none =>
        cases h : s.errors with
        | nil => simp [mapResult, h]
        | cons e0 rest => simp [mapResult, h]⟩

/-- C8 (code bug): with the unexported-skip policy active (the default)
and the allow-private-fields override set, the unexported source field is
still skipped — the engine never consults `AllowPrivateFields`, so the
run is identical to the run without the override, and the unexported
destination field keeps its zero value while the exported one is
populated. -/
theorem claim_C8_allow_private_ignored :
    ((Map (NewMapper [WithAllowPrivateFields true]) 10 (some (.vptr privTy (some 0)))
        (some privSrc) (initState heapPriv)).map
        (fun r => (r.1, readPointee r.2.heap 0)) =
      some (none, .vstruct "Priv" [(pMeta "Name", .vstring "x"),
        (⟨"secret", [], "mapper", false⟩, .vint 0)])) ∧
    Map (NewMapper [WithAllowPrivateFields true]) 10 (some (.vptr privTy (some 0)))
        (some privSrc) (initState heapPriv) =
      Map (NewMapper []) 10 (some (.vptr privTy (some 0))) (some privSrc)
        (initState heapPriv) :=
  ⟨rfl, rfl⟩

/-- C9 (code bug): `NewMapper` applies the options and never calls
`Config.validate`, so `WithMaxDepth(-5)` and `WithMaxSliceCapacity(-3)`
produce configurations violating the Policy invariants (which
`Config.validate` would have rejected), and every subsequent `Map` call
under the `-5` depth bound immediately fails with `DepthExceeded`. -/
theorem claim_C9_no_validation :
    (NewMapper [WithMaxDepth (-5)]).MaxDepth = -5 ∧
    Config.validate (NewMapper [WithMaxDepth (-5)]) = some (.invalidMaxDepth (-5)) ∧
    (NewMapper [WithMaxSliceCapacity (-3)]).MaxSliceCapacity = -3 ∧
    Config.validate (NewMapper [WithMaxSliceCapacity (-3)]) =
      some (.invalidMaxSliceCapacity (-3)) ∧
    (Map (NewMapper [WithMaxDepth (-5)]) 10 (some (.vptr privTy (some 0)))
        (some privSrc) (initState heapPriv)).map Prod.fst =
      some (some .maxDepthExceeded) :=
  ⟨rfl, rfl, rfl, rfl, rfl⟩

/-- C10: the visited set only ever grows; a pointer-like non-nil source
identity is recorded exactly on its first encounter and every later
encounter fails with `CircularReference`; consequently, in the struct
whose two pointer fields share one target, the first field is deep
copied (a fresh cell holding 7), the second is rejected, and the
top-level result is the summarizing failure with count 1 and first
error `CircularReference`. -/
theorem claim_C10_visited_once :
    (∀ (v : RVal) (s : MState) (x : Addr), x ∈ s.visited →
        x ∈ (checkCircular v s).2.visited) ∧
    (∀ (v : RVal) (a : Addr) (s : MState), isValidV v = true →
        IsPointerLike (kindOf v) = true → addrOf v = some a →
        checkCircular v s =
          if a ∈ s.visited then (some .circularReference, s)
          else (none, { s with visited := a :: s.visited })) ∧
    ((Map (NewMapper []) 10 (some (.vptr shTy (some 0))) (some shSrc)
        (initState heapSh)).map
        (fun r => (r.1, readPointee r.2.heap 0, readPointee r.2.heap 100)) =
      some (some (.summary 1 .circularReference),
        .vstruct "Sh" [(pMeta "P", .vptr .tInt (some 100)), (pMeta "Q", .vptr .tInt none)],
        .vint 7)) := by
  refine ⟨?_, ?_, rfl⟩
  · intro v s x hx
    unfold checkCircular
    split
    · exact hx
    · split
      · exact hx
      · split
        · exact hx
        · exact List.mem_cons_of_mem _ hx
  · intro v a s hv hp ha
    unfold checkCircular
    rw [if_neg (by simp [hv, hp])]
    simp only [ha]

/-- C10 witness: the characterization applied at a concrete pointer and
state. -/
theorem claim_C10_witness :
    (3 : Addr) ∈ (checkCircular (.vptr .tInt (some 7))
        { initState heapSh with visited := [3] }).2.visited ∧
    checkCircular (.vptr .tInt (some 7)) (initState heapSh) =
      (none, { initState heapSh with visited := [7] }) := by
  constructor
  · exact claim_C10_visited_once.1 (.vptr .tInt (some 7))
      { initState heapSh with visited := [3] } 3 (by simp)
  · have h := claim_C10_visited_once.2.1 (.vptr .tInt (some 7)) 7 (initState heapSh)
      rfl rfl rfl
    simpa [initState] using h

/-- At a depth strictly beyond a non-negative bound, `mapValue` fails
immediately with `DepthExceeded`, touching nothing. -/
theorem mapValue_chain_depth_err (M r d fuel : Nat) (s : MState)
    (hdep : s.depth = (d : Int)) (hdm : M < d) :
    mapValue (cfgDepth M) (fuel + 1) (.vint 0) true (chainVal r) s =
      some ((.vint 0, some .maxDepthExceeded), s) := by
  have hMD : (cfgDepth M).MaxDepth = (M : Int) := rfl
  have hM : (cfgDepth M).MaxDepth ≠ NoDepthLimit ∧ s.depth > (cfgDepth M).MaxDepth := by
    rw [hMD, hdep]
    unfold NoDepthLimit
    constructor <;> omega
  cases r with
  | zero =>
      simp only [mapValue, chainVal]
      rw [if_neg (by simp [isValidV]), if_pos hM]
  | succ r =>
      simp only [mapValue, chainVal]
      rw [if_neg (by simp [isValidV]), if_pos hM]

/-- Within the depth bound, mapping the innermost chain value (the int
7) assigns it to the destination. -/
theorem mapValue_chain_zero (M d fuel : Nat) (s : MState)
    (hdep : s.depth = (d : Int)) (hdm : d ≤ M) :
    mapValue (cfgDepth M) (fuel + 1) (.vint 0) true (chainVal 0) s =
      some ((.vint 7, none), s) := by
  have hMD : (cfgDepth M).MaxDepth = (M : Int) := rfl
  have hM : ¬((cfgDepth M).MaxDepth ≠ NoDepthLimit ∧ s.depth > (cfgDepth M).MaxDepth) := by
    rw [hMD, hdep]
    unfold NoDepthLimit
    intro h
    omega
  simp only [mapValue, chainVal]
  rw [if_neg (by simp [isValidV]), if_neg hM]
  rw [if_neg (by simp [kindOf, IsNillable])]
  rw [if_neg (by simp [kindOf, IsPointerLike])]
  simp only [lookupConverter, cfgDepth, NewMapper, WithMaxDepth, newMapperBaseConfig,
    List.foldl, kindOf, mapBasic, typeOf, tyBEq]
  simp

/-- Within the depth bound, one chain link reduces to the next: the
pointer is recorded as visited, the depth is incremented for the
recursive call and restored afterwards. -/
theorem mapValue_chain_step (M r d fuel : Nat) (s : MState)
    (hheap : s.heap = chainHeapFn) (hdep : s.depth = (d : Int))
    (hvis : (r + 1) ∉ s.visited) (hdm : d ≤ M) :
    mapValue (cfgDepth M) (fuel + 2) (.vint 0) true (chainVal (r + 1)) s =
      (mapValue (cfgDepth M) fuel (.vint 0) true (chainVal r)
          { s with visited := (r + 1) :: s.visited, depth := s.depth + 1 }).map
        (fun p => (p.1, { p.2 with depth := p.2.depth - 1 })) := by
  have hMD : (cfgDepth M).MaxDepth = (M : Int) := rfl
  have hM : ¬((cfgDepth M).MaxDepth ≠ NoDepthLimit ∧ s.depth > (cfgDepth M).MaxDepth) := by
    rw [hMD, hdep]
    unfold NoDepthLimit
    intro h
    omega
  have hcirc : checkCircular (.vptr (chainTy r) (some (r + 1))) s =
      (none, { s with visited := (r + 1) :: s.visited }) := by
    unfold checkCircular
    rw [if_neg (by simp [isValidV, kindOf, IsPointerLike])]
    simp only [addrOf]
    rw [if_neg hvis]
  have hread : readPointee s.heap (r + 1) = chainVal r := by
    rw [hheap]
    simp [readPointee, chainHeapFn]
  have hcv : chainVal (r + 1) = .vptr (chainTy r) (some (r + 1)) := rfl
  have hsk : (cfgDepth M).SkipCircularCheck = false := rfl
  have hcc : lookupConverter (cfgDepth M).CustomConverters
      (typeOf (.vptr (chainTy r) (some (r + 1)))) = none := rfl
  rw [hcv]
  simp only [mapValue]
  rw [if_neg (by simp [isValidV]), if_neg hM]
  rw [if_neg (by simp [kindOf, IsNillable, isNilV])]
  rw [if_pos (show (cfgDepth M).SkipCircularCheck = false ∧
      IsPointerLike (kindOf (.vptr (chainTy r) (some (r + 1)))) = true from
      ⟨hsk, by simp [kindOf, IsPointerLike]⟩)]
  rw [hcirc]
  simp only [hcc, mapPointer, isNilV, kindOf, hread]
  cases hmv : mapValue (cfgDepth M) fuel (.vint 0) true (chainVal r)
      { s with visited := (r + 1) :: s.visited, depth := s.depth + 1 } with
  | none => simp [hmv]
  | some ps =>
      rcases ps with ⟨⟨dv, e⟩, s3⟩
      simp [hmv]

/-- Full chain induction: from current depth `d`, mapping a source
nested to depth `r` succeeds (writing 7 into the destination) iff
`d + r` stays within the bound `M`, and otherwise fails with
`DepthExceeded`; heap, depth and error list are restored either way. -/
theorem mapValue_chain (M : Nat) :
    ∀ (r d fuel : Nat) (s : MState),
      s.heap = chainHeapFn → s.depth = (d : Int) →
      (∀ a ∈ s.visited, r < a) → 2 * r + 2 ≤ fuel →
      ∃ s' : MState,
        mapValue (cfgDepth M) fuel (.vint 0) true (chainVal r) s =
          some ((if d + r ≤ M then .vint 7 else .vint 0,
                 if d + r ≤ M then none else some .maxDepthExceeded), s') ∧
        s'.heap = s.heap ∧ s'.depth = s.depth ∧ s'.errors = s.errors := by
  intro r
  induction r with
  | zero =>
      intro d fuel s hheap hdep hvis hfuel
      obtain ⟨f, rfl⟩ : ∃ f, fuel = f + 1 := ⟨fuel - 1, by omega⟩
      by_cases hdm : d ≤ M
      · refine ⟨s, ?_, rfl, rfl, rfl⟩
        rw [mapValue_chain_zero M d f s hdep hdm]
        rw [if_pos (by omega), if_pos (by omega)]
      · refine ⟨s, ?_, rfl, rfl, rfl⟩
        rw [mapValue_chain_depth_err M 0 d f s hdep (by omega)]
        rw [if_neg (by omega), if_neg (by omega)]
  | succ r ih =>
      intro d fuel s hheap hdep hvis hfuel
      obtain ⟨f, rfl⟩ : ∃ f, fuel = f + 2 := ⟨fuel - 2, by omega⟩
      by_cases hdm : d ≤ M
      · have hvis1 : (r + 1) ∉ s.visited := fun h => absurd (hvis _ h) (by omega)
        rw [mapValue_chain_step M r d f s hheap hdep hvis1 hdm]
        obtain ⟨s', heq, hh, hd, he⟩ := ih (d + 1) f
            { s with visited := (r + 1) :: s.visited, depth := s.depth + 1 }
            hheap
            (by
              show s.depth + 1 = ((d + 1 : Nat) : Int)
              rw [hdep]
              push_cast
              ring)
            (by
              intro a ha
              rcases List.mem_cons.mp ha with rfl | hmem
              · omega
              · exact lt_of_le_of_lt (by omega) (hvis a hmem))
            (by omega)
        by_cases hfin : d + (r + 1) ≤ M
        · rw [if_pos (by omega : d + 1 + r ≤ M), if_pos (by omega : d + 1 + r ≤ M)] at heq
          rw [heq]
          rw [if_pos hfin, if_pos hfin]
          refine ⟨{ s' with depth := s'.depth - 1 }, by simp [Option.map], ?_, ?_, ?_⟩
          · simpa using hh
          · simp only [hd]
            simp [hdep]
          · simpa using he
        · rw [if_neg (by omega : ¬ d + 1 + r ≤ M),
            if_neg (by omega : ¬ d + 1 + r ≤ M)] at heq
          rw [heq]
          rw [if_neg hfin, if_neg hfin]
          refine ⟨{ s' with depth := s'.depth - 1 }, by simp [Option.map], ?_, ?_, ?_⟩
          · simpa using hh
          · simp only [hd]
            simp [hdep]
          · simpa using he
      · refine ⟨s, ?_, rfl, rfl, rfl⟩
        rw [mapValue_chain_depth_err M (r + 1) d (f + 1) s hdep (by omega)]
        rw [if_neg (by omega), if_neg (by omega)]

/-- Unfolding of `Mapper.Map` for a non-nil pointer destination: the
context is reset, the top-level `mapValue` runs on the dereferenced
destination, the pointee is written back and the final inspection
produces the result. -/
theorem Map_ptr (cfg : Config) (fuel : Nat) (t : Ty) (a : Addr) (sv : RVal)
    (s0 : MState) :
    Map cfg fuel (some (.vptr t (some a))) (some sv) s0 =
      match mapValue cfg fuel (readPointee s0.heap a) true sv
          { s0 with visited := [], errors := [], depth := 0 } with
      | none => none
      | some ((de, e), s2) =>
          some (mapResult e { s2 with heap := updateHeap s2.heap a (.hval de) },
                { s2 with heap := updateHeap s2.heap a (.hval de) }) := rfl

/-- C2: for a source nested to depth `D` (a chain of `D` pointers over
an int) and a configured non-negative maximum depth `M`, the top-level
copy fails with `DepthExceeded` when `M < D` (leaving the destination
untouched) and succeeds when `M ≥ D` (populating the destination). -/
theorem claim_C2_depth_bound :
    ∀ (D M : Nat),
      (Map (cfgDepth M) (2 * D + 2) (some (.vptr .tInt (some 0))) (some (chainVal D))
          (initState chainHeapFn)).map (fun p => (p.1, readPointee p.2.heap 0)) =
        if D ≤ M then some (none, .vint 7)
        else some (some .maxDepthExceeded, .vint 0) := by
  intro D M
  obtain ⟨s', heq, hh, hd, he⟩ := mapValue_chain M D 0 (2 * D + 2)
    { initState chainHeapFn with visited := [], errors := [], depth := 0 }
    rfl rfl (by intro a ha; cases ha) (le_refl _)
  rw [Map_ptr]
  rw [show readPointee (initState chainHeapFn).heap 0 = RVal.vint 0 from rfl]
  rw [heq]
  have herr : s'.errors = [] := he
  by_cases hDM : D ≤ M
  · rw [if_pos (by omega : 0 + D ≤ M), if_pos (by omega : 0 + D ≤ M)]
    rw [if_pos hDM]
    simp [mapResult, herr, readPointee, updateHeap]
  · rw [if_neg (by omega : ¬ 0 + D ≤ M), if_neg (by omega : ¬ 0 + D ≤ M)]
    rw [if_neg hDM]
    simp [mapResult, readPointee, updateHeap]

/-- Revisiting an already-recorded pointer identity fails immediately
with `CircularReference`, leaving the state untouched. -/
theorem mapValue_cycle_revisit (j fuel : Nat) (s : MState) (hvis : j ∈ s.visited) :
    mapValue cfgNoLimit (fuel + 1) (.vint 0) true (.vptr (.tNamed "P") (some j)) s =
      some ((.vint 0, some .circularReference), s) := by
  have hM : ¬(cfgNoLimit.MaxDepth ≠ NoDepthLimit ∧ s.depth > cfgNoLimit.MaxDepth) := by
    intro h
    exact h.1 rfl
  have hcirc : checkCircular (.vptr (.tNamed "P") (some j)) s =
      (some .circularReference, s) := by
    unfold checkCircular
    rw [if_neg (by simp [isValidV, kindOf, IsPointerLike])]
    simp only [addrOf]
    rw [if_pos hvis]
  simp only [mapValue]
  rw [if_neg (by simp [isValidV]), if_neg hM]
  rw [if_neg (by simp [kindOf, IsNillable, isNilV])]
  rw [if_pos (show cfgNoLimit.SkipCircularCheck = false ∧
      IsPointerLike (kindOf (.vptr (.tNamed "P") (some j))) = true from
      ⟨rfl, by simp [kindOf, IsPointerLike]⟩)]
  rw [hcirc]

/-- One unlimited-depth step around the cycle: the current pointer
identity is recorded and the traversal moves to the next cell. -/
theorem mapValue_cycle_step (n j fuel : Nat) (s : MState) (hj : j < n)
    (hheap : s.heap = cycleHeapFn n) (hvis : j ∉ s.visited) :
    mapValue cfgNoLimit (fuel + 2) (.vint 0) true (.vptr (.tNamed "P") (some j)) s =
      (mapValue cfgNoLimit fuel (.vint 0) true
          (.vptr (.tNamed "P") (some ((j + 1) % n)))
          { s with visited := j :: s.visited, depth := s.depth + 1 }).map
        (fun p => (p.1, { p.2 with depth := p.2.depth - 1 })) := by
  have hM : ¬(cfgNoLimit.MaxDepth ≠ NoDepthLimit ∧ s.depth > cfgNoLimit.MaxDepth) := by
    intro h
    exact h.1 rfl
  have hcirc : checkCircular (.vptr (.tNamed "P") (some j)) s =
      (none, { s with visited := j :: s.visited }) := by
    unfold checkCircular
    rw [if_neg (by simp [isValidV, kindOf, IsPointerLike])]
    simp only [addrOf]
    rw [if_neg hvis]
  have hread : readPointee s.heap j = .vptr (.tNamed "P") (some ((j + 1) % n)) := by
    rw [hheap]
    simp [readPointee, cycleHeapFn, hj]
  have hcc : lookupConverter cfgNoLimit.CustomConverters
      (typeOf (.vptr (.tNamed "P") (some j))) = none := rfl
  simp only [mapValue]
  rw [if_neg (by simp [isValidV]), if_neg hM]
  rw [if_neg (by simp [kindOf, IsNillable, isNilV])]
  rw [if_pos (show cfgNoLimit.SkipCircularCheck = false ∧
      IsPointerLike (kindOf (.vptr (.tNamed "P") (some j))) = true from
      ⟨rfl, by simp [kindOf, IsPointerLike]⟩)]
  rw [hcirc]
  simp only [hcc, mapPointer, isNilV, kindOf, hread]
  cases hmv : mapValue cfgNoLimit fuel (.vint 0) true
      (.vptr (.tNamed "P") (some ((j + 1) % n)))
      { s with visited := j :: s.visited, depth := s.depth + 1 } with
  | none => simp [hmv]
  | some ps =>
      rcases ps with ⟨⟨dv, e⟩, s3⟩
      simp [hmv]

/-- Full cycle induction: with cycle checking active and no depth bound,
traversing a cycle of `n` pointers starting at cell `j` (with exactly
the cells below `j` already visited) fails with `CircularReference`,
restoring depth and leaving heap and errors untouched. -/
theorem mapValue_cycle (n : Nat) (_hn : 1 ≤ n) :
    ∀ (m j fuel : Nat) (s : MState), j < n → n - j = m →
      s.heap = cycleHeapFn n → (∀ a : Nat, a ∈ s.visited ↔ a < j) →
      2 * m + 2 ≤ fuel →
      ∃ s' : MState,
        mapValue cfgNoLimit fuel (.vint 0) true (.vptr (.tNamed "P") (some j)) s =
          some ((.vint 0, some .circularReference), s') ∧
        s'.heap = s.heap ∧ s'.depth = s.depth ∧ s'.errors = s.errors := by
  intro m
  induction m with
  | zero =>
      intro j fuel s hj hm
      omega
  | succ m ih =>
      intro j fuel s hj hm hheap hvis hfuel
      obtain ⟨f, rfl⟩ : ∃ f, fuel = f + 2 := ⟨fuel - 2, by omega⟩
      have hjv : j ∉ s.visited := by
        intro h
        have hlt := (hvis j).mp h
        omega
      rw [mapValue_cycle_step n j f s hj hheap hjv]
      by_cases hlast : j + 1 = n
      · have h0 : (j + 1) % n = 0 := by
          rw [hlast]
          exact Nat.mod_self n
        rw [h0]
        have h0v : (0 : Addr) ∈ (j :: s.visited) := by
          rcases Nat.eq_zero_or_pos j with rfl | hj0
          · exact List.mem_cons_self _ _
          · exact List.mem_cons_of_mem _ ((hvis 0).mpr hj0)
        obtain ⟨f', rfl⟩ : ∃ f', f = f' + 1 := ⟨f - 1, by omega⟩
        rw [mapValue_cycle_revisit 0 f'
          { s with visited := j :: s.visited, depth := s.depth + 1 } h0v]
        refine ⟨{ s with visited := j :: s.visited, depth := s.depth + 1 - 1 },
          by simp [Option.map], rfl, by simp, rfl⟩
      · have hmod : (j + 1) % n = j + 1 := Nat.mod_eq_of_lt (by omega)
        rw [hmod]
        obtain ⟨s', heq, hh, hd, he⟩ := ih (j + 1) f
            { s with visited := j :: s.visited, depth := s.depth + 1 }
            (by omega) (by omega) hheap
            (by
              intro a
              rw [List.mem_cons, hvis a]
              constructor
              · rintro (rfl | h) <;> omega
              · intro h
                by_cases heq : a = j
                · exact Or.inl heq
                · exact Or.inr (by omega))
            (by omega)
        rw [heq]
        refine ⟨{ s' with depth := s'.depth - 1 }, by simp [Option.map], ?_, ?_, ?_⟩
        · simpa using hh
        · simp only [hd]
          simp
        · simpa using he

/-- C3 amended: with cycle-checking enabled and the depth bound not
triggering first (here: unlimited depth), the top-level copy of a
source forming a cycle of `n ≥ 1` pointers reports `CircularReference`
and leaves the destination untouched. -/
theorem claim_C3_cycle_detection :
    ∀ (n : Nat), 1 ≤ n →
      (Map cfgNoLimit (2 * n + 4) (some (.vptr .tInt (some n)))
          (some (.vptr (.tNamed "P") (some 0)))
          (initState (cycleHeapFn n))).map (fun p => (p.1, readPointee p.2.heap n)) =
        some (some .circularReference, .vint 0) := by
  intro n hn
  obtain ⟨s', heq, hh, hd, he⟩ := mapValue_cycle n hn n 0 (2 * n + 4)
    { initState (cycleHeapFn n) with visited := [], errors := [], depth := 0 }
    (by omega) (by omega) rfl (by intro a; simp) (by omega)
  rw [Map_ptr]
  rw [show readPointee (initState (cycleHeapFn n)).heap n = RVal.vint 0 by
    simp [readPointee, initState, cycleHeapFn]]
  rw [heq]
  simp [mapResult, readPointee, updateHeap]

/-- C3 witness: the cycle theorem applied to the two-pointer cycle. -/
theorem claim_C3_witness :
    (Map cfgNoLimit 8 (some (.vptr .tInt (some 2)))
        (some (.vptr (.tNamed "P") (some 0)))
        (initState (cycleHeapFn 2))).map (fun p => (p.1, readPointee p.2.heap 2)) =
      some (some .circularReference, .vint 0) := by
  have h := claim_C3_cycle_detection 2 (by omega)
  simpa using h

/-- C3 counterexample: with cycle-checking enabled but a maximum depth
smaller than the cycle length (here depth 2 against a cycle of 5
pointers), the depth bound triggers before the revisit, so the
operation reports `DepthExceeded`, not `CircularReference` — refuting
the claim as stated for arbitrary configurations with cycle-checking
enabled. -/
theorem claim_C3_counterexample :
    ((Map (NewMapper [WithMaxDepth 2]) 20 (some (.vptr .tInt (some 5)))
        (some (.vptr (.tNamed "P") (some 0)))
        (initState (cycleHeapFn 5))).map Prod.fst =
      some (some .maxDepthExceeded)) ∧
    some (some MErr.maxDepthExceeded) ≠ some (some MErr.circularReference) :=
  ⟨rfl, by decide⟩

/-- When some field of the list matches the name up to case, the linear
scan returns the first such field in declaration order: the list splits
as `pre ++ (f, t) :: post` with every field of `pre` failing the
case-insensitive match and `f` the result. -/
theorem findFoldField_first (n : String) :
    ∀ (fields : List (SFieldMeta × Ty)) (g : SFieldMeta × Ty), g ∈ fields →
      EqualFold g.1.name n = true →
      ∃ (pre : List (SFieldMeta × Ty)) (f : SFieldMeta) (t : Ty)
        (post : List (SFieldMeta × Ty)),
        fields = pre ++ (f, t) :: post ∧
        (∀ p ∈ pre, EqualFold p.1.name n = false) ∧
        EqualFold f.name n = true ∧
        findFoldField fields n = some f := by
  intro fields
  induction fields with
  | nil => intro g hg; cases hg
  | cons p rest ih =>
      intro g hg hfold
      by_cases hp : EqualFold p.1.name n = true
      · exact ⟨[], p.1, p.2, rest, by simp, by simp, hp, by simp [findFoldField, hp]⟩
      · rcases List.mem_cons.mp hg with rfl | hmem
        · exact absurd hfold hp
        · obtain ⟨pre, f, t, post, heq, hpre, hffold, hfind⟩ := ih g hmem hfold
          refine ⟨p :: pre, f, t, post, by simp [heq], ?_, hffold,
            by simp [findFoldField, hp, hfind]⟩
          intro q hq
          rcases List.mem_cons.mp hq with rfl | hqpre
          · exact Bool.eq_false_iff.mpr hp
          · exact hpre q hqpre

/-- C7: a source field carrying a primary tag (present, not the
exclusion marker) resolves to the tag value rather than the declared
name; an exact destination name match always wins; and with
case-sensitivity disabled, a destination field differing only in letter
case is still matched — the field returned being the first
case-insensitive match in declaration order (every field declared
before it fails the case-insensitive comparison). -/
theorem claim_C7_name_resolution :
    (∀ (cfg : Config) (f : SFieldMeta), cfg.TagName ≠ "" →
        tagGet f.tags cfg.TagName ≠ "" → tagGet f.tags cfg.TagName ≠ "-" →
        getDestFieldName cfg f = tagGet f.tags cfg.TagName) ∧
    (∀ (cfg : Config) (sn : String) (fields : List (SFieldMeta × Ty)) (n : String)
        (f : SFieldMeta), fieldByName fields n = some f →
        findDstField cfg (.tStruct sn fields) n = some f) ∧
    (∀ (cfg : Config) (sn : String) (fields : List (SFieldMeta × Ty)) (n : String)
        (g : SFieldMeta × Ty), cfg.CaseSensitive = false →
        fieldByName fields n = none → g ∈ fields → EqualFold g.1.name n = true →
        ∃ (pre : List (SFieldMeta × Ty)) (f : SFieldMeta) (t : Ty)
          (post : List (SFieldMeta × Ty)),
          fields = pre ++ (f, t) :: post ∧
          (∀ p ∈ pre, EqualFold p.1.name n = false) ∧
          EqualFold f.name n = true ∧
          findDstField cfg (.tStruct sn fields) n = some f) := by
  refine ⟨?_, ?_, ?_⟩
  · intro cfg f h1 h2 h3
    unfold getDestFieldName
    rw [if_pos ⟨h1, h2, h3⟩]
  · intro cfg sn fields n f h
    simp [findDstField, h]
  · intro cfg sn fields n g hcs hexact hg hfold
    obtain ⟨pre, f, t, post, heq, hpre, hffold, hfind⟩ :=
      findFoldField_first n fields g hg hfold
    exact ⟨pre, f, t, post, heq, hpre, hffold,
      by simp [findDstField, hexact, hcs, hfind]⟩

/-- C7 witness: the resolution rules applied at the concrete tagged
field and at the concrete case-folded destination struct, whose tie
(`NAME` declared before `name`, both matching `Name` up to case) is
broken to the first-declared `NAME`. -/
theorem claim_C7_witness :
    getDestFieldName (NewMapper [WithTagName "mapper"]) fTagged = "name" ∧
    (∃ (pre : List (SFieldMeta × Ty)) (f : SFieldMeta) (t : Ty)
      (post : List (SFieldMeta × Ty)),
      dstFieldsFold = pre ++ (f, t) :: post ∧
      (∀ p ∈ pre, EqualFold p.1.name "Name" = false) ∧
      EqualFold f.name "Name" = true ∧
      findDstField (NewMapper [WithCaseSensitive false])
        (.tStruct "D" dstFieldsFold) "Name" = some f) ∧
    findDstField (NewMapper [WithCaseSensitive false])
      (.tStruct "D" dstFieldsFold) "Name" = some (pMeta "NAME") := by
  refine ⟨?_, ?_, rfl⟩
  · have h := claim_C7_name_resolution.1 (NewMapper [WithTagName "mapper"]) fTagged
      (by decide) (by decide) (by decide)
    simpa using h
  · exact claim_C7_name_resolution.2.2 (NewMapper [WithCaseSensitive false]) "D"
      dstFieldsFold "Name" (pMeta "NAME", .tString) rfl rfl
      (by unfold dstFieldsFold; exact List.mem_cons_of_mem _ (List.mem_cons_self _ _))
      (by decide)

/-- C1 counterexample: a typed nil pointer destination is not rejected
with `InvalidDestination` — the call succeeds (the claim predicts
`InvalidDestination` for it). -/
theorem claim_C1_counterexample :
    ((Map (NewMapper []) 5 (some (.vptr .tInt none)) (some (.vint 5))
        (initState heapPerson)).map Prod.fst = some none) ∧
    some (none : Option MErr) ≠ some (some MErr.invalidDestination) :=
  ⟨rfl, by decide⟩

/-- C1 amended: a nil destination or source argument fails with
`NilPointer`; a destination whose kind is not pointer fails with
`InvalidDestination`; but a typed nil pointer destination passes both
checks and the operation proceeds (succeeding as a no-op on shallow
sources). -/
theorem claim_C1_arg_checks :
    (∀ (cfg : Config) (fuel : Nat) (dst src : Option RVal) (s : MState),
        dst = none ∨ src = none →
        Map cfg fuel dst src s = some (some .nilPointer, s)) ∧
    (∀ (cfg : Config) (fuel : Nat) (v w : RVal) (s : MState), ¬ kindOf v = .kptr →
        Map cfg fuel (some v) (some w) s = some (some .invalidDestination, s)) ∧
    ((Map (NewMapper []) 6 (some (.vptr .tInt none)) (some (.vint 5))
        (initState heapPerson)).map Prod.fst = some none) := by
  refine ⟨?_, ?_, rfl⟩
  · rintro cfg fuel dst src s (rfl | rfl)
    · simp [Map]
    · simp [Map]
  · intro cfg fuel v w s h
    simp [Map, h]

/-- C1 witness: the argument checks applied at concrete inputs. -/
theorem claim_C1_witness :
    Map (NewMapper []) 3 none (some (.vint 1)) (initState heapPerson) =
      some (some .nilPointer, initState heapPerson) ∧
    Map (NewMapper []) 3 (some (.vint 2)) (some (.vint 1)) (initState heapPerson) =
      some (some .invalidDestination, initState heapPerson) :=
  ⟨claim_C1_arg_checks.1 (NewMapper []) 3 none (some (.vint 1)) (initState heapPerson)
      (Or.inl rfl),
   claim_C1_arg_checks.2.1 (NewMapper []) 3 (.vint 2) (.vint 1) (initState heapPerson)
      (by decide)⟩

end GoMapper
